import Mathlib

/-!
Verification of the concurrent image-download engine in `src/main.py`
(excel-url-downloader).  The Python source is shallowly embedded: pure
helpers become Lean functions, the per-task worker `download_image`
becomes a trace-producing function, the shared circuit-breaker global
becomes a fold over worker outcome effects, and the asyncio semaphore
becomes a labelled transition system.  All definitions are executable so
concrete scenarios evaluate by `decide` / `rfl`.
-/

namespace UrlDl

/-! ## Character-level string utilities

Faithful models of the Python library functions used by `main.py`:
`str.startswith`, `urllib.parse.urlparse(...).path`, `os.path.basename`
and `os.path.splitext`.  They are written by structural recursion over
`List Char` so that they reduce inside the kernel. -/

/-- `charsStartWith s pat` models Python `s.startswith(pat)` on char lists. -/
def charsStartWith : List Char → List Char → Bool
  | _, [] => true
  | [], _ :: _ => false
  | c :: cs, d :: ds => (c = d) && charsStartWith cs ds

/-- Python `s.startswith(pat)` (src/main.py line 72). -/
def strStartsWith (s pat : String) : Bool :=
  charsStartWith s.data pat.data

/-- Everything strictly before the first occurrence of `c`. -/
def takeUntil (c : Char) : List Char → List Char
  | [] => []
  | d :: ds => if d = c then [] else d :: takeUntil c ds

/-- Split at the first colon: `some (before, after)` when a colon occurs. -/
def splitAtColon : List Char → Option (List Char × List Char)
  | [] => none
  | c :: cs =>
    if c = ':' then some ([], cs)
    else
      match splitAtColon cs with
      | some p => some (c :: p.1, p.2)
      | none => none

/-- Characters allowed in a URL scheme (`urllib.parse.scheme_chars`). -/
def isSchemeChar (c : Char) : Bool :=
  c.isAlphanum || c = '+' || c = '-' || c = '.'

/-- A non-empty run of scheme characters, as `urlsplit` requires before
treating the text before the first colon as a scheme. -/
def validScheme : List Char → Bool
  | [] => false
  | cs => cs.all isSchemeChar

/-- Drop the netloc: after a leading `//`, the netloc extends up to the
first of `/`, `?`, `#` (CPython `_splitnetloc`); the delimiter stays. -/
def dropNetloc : List Char → List Char
  | [] => []
  | c :: cs => if c = '/' || c = '?' || c = '#' then c :: cs else dropNetloc cs

/-- The `path` component of `urllib.parse.urlparse`, as used at
src/main.py lines 52-53 and 84-85: strip a valid scheme before the first
colon, strip the `//netloc`, then cut query and fragment. -/
def urlPathChars (cs : List Char) : List Char :=
  let afterScheme :=
    match splitAtColon cs with
    | some p => if validScheme p.1 then p.2 else cs
    | none => cs
  let afterNetloc :=
    match afterScheme with
    | '/' :: '/' :: r => dropNetloc r
    | r => r
  takeUntil '?' (takeUntil '#' afterNetloc)

/-- `urlparse(url).path` on strings. -/
def urlPath (s : String) : String :=
  String.mk (urlPathChars s.data)

/-- `os.path.basename`: the part after the last `/`. -/
def basenameChars (cs : List Char) : List Char :=
  cs.foldl (fun acc c => if c = '/' then [] else acc ++ [c]) []

/-- `os.path.basename` on strings (src/main.py line 85). -/
def basename (p : String) : String :=
  String.mk (basenameChars p.data)

/-- Extension of a basename per `os.path.splitext`: the suffix from the
last dot, provided a non-dot character occurs before that dot (leading
dots of the basename never start an extension).  The `seen` flag records
whether a non-dot character has occurred before the current position. -/
def extGo : List Char → Bool → List Char
  | [], _ => []
  | c :: cs, seen =>
    if c = '.' then
      let rest := extGo cs seen
      if rest = [] then (if seen then c :: cs else []) else rest
    else extGo cs true

/-- `os.path.splitext(p)[1]` (src/main.py line 54): only dots after the
last path separator count, honoring the leading-dot rule. -/
def splitextExt (p : String) : String :=
  String.mk (extGo (basenameChars p.data) false)

/-- The fixed allow-list of image extensions (src/main.py line 57). -/
def allowedExts : List String :=
  [".jpg", ".jpeg", ".png", ".gif", ".bmp", ".webp"]

/-- src/main.py lines 50-59: the URL path's extension when it is in the
allow-list (case-sensitive), else the default. -/
def get_file_extension (url : String) (default_ext : String := ".jpg") : String :=
  let ext := splitextExt (urlPath url)
  if ext ∈ allowedExts then ext else default_ext

/-- src/main.py lines 84-88: the local file name for a successful fetch.
The final path segment is used verbatim when non-empty; only when it is
empty is `image_<index><ext>` synthesized from `get_file_extension`. -/
def resolve_filename (url : String) (index : Nat) : String :=
  let original_filename := basename (urlPath url)
  let ext := get_file_extension url
  if original_filename = "" then "image_" ++ toString index ++ ext
  else original_filename

/-! ## The download worker

`download_image` (src/main.py lines 65-123) is embedded as a pure
function from the task's url, its zero-based position `index`, and the
behavior of the network (what the k-th `client.get` for this task would
produce) to a structured result: the ordered trace of the worker's
effects, the writes it performs on the two error mappings, and its
terminal effect on the shared consecutive-failure counter.  The
semaphore is entered before validation (line 70 wraps the whole body),
which the trace records literally. -/

/-- A raw cell value from the URL column: a string, or any non-string
value (e.g. a pandas NaN), which `isinstance(url, str)` rejects. -/
inductive Url where
  | str (s : String)
  | nonString
deriving DecidableEq

/-- Validation at src/main.py line 72:
`isinstance(url, str) and url.startswith("http")`. -/
def isValidUrl : Url → Bool
  | .nonString => false
  | .str s => strStartsWith s "http"

/-- Outcome of one `client.get` + `raise_for_status` for this task:
success, an `httpx.HTTPStatusError`, or an `httpx.RequestError`. -/
inductive AttemptResult where
  | ok
  | httpStatusError (msg : String)
  | requestError (msg : String)
deriving DecidableEq

/-- One observable step of a worker, in program order. -/
inductive Event where
  | acquire
  | fetch (attempt : Nat)
  | fileWrite (name : String)
  | sleepBackoff (secs : Nat)
  | sleepPacing
  | release
deriving DecidableEq

/-- Terminal effect of one task on the shared global
`consecutive_failures` (src/main.py lines 63, 95, 116). -/
inductive BreakerEffect where
  | reset
  | inc
  | idle
deriving DecidableEq

/-- Result of the retry loop body (src/main.py lines 79-123). -/
structure LoopRes where
  events : List Event
  dlErrWrites : List (Nat × String × String)
  effect : BreakerEffect
deriving DecidableEq

/-- The `while retries < max_retries` loop of src/main.py lines 79-123,
by structural recursion on the remaining fuel `maxRetries - retries`;
`r` is the current value of `retries`, which is also the index of the
attempt being made.  Each `httpx.RequestError` writes the error record
(line 108) before the retry decision is taken. -/
def attemptLoop (net : Nat → AttemptResult) (url : String) (row index : Nat) :
    Nat → Nat → LoopRes
  | 0, _ => { events := [], dlErrWrites := [], effect := .idle }
  | fuel + 1, r =>
    match net r with
    | .ok =>
      { events := [.fetch r, .fileWrite (resolve_filename url index), .sleepPacing],
        dlErrWrites := [], effect := .reset }
    | .httpStatusError msg =>
      { events := [.fetch r], dlErrWrites := [(row, url, msg)], effect := .idle }
    | .requestError msg =>
      match fuel with
      | 0 =>
        { events := [.fetch r], dlErrWrites := [(row, url, msg)], effect := .inc }
      | fuel' + 1 =>
        let rest := attemptLoop net url row index (fuel' + 1) (r + 1)
        { events := .fetch r :: .sleepBackoff (2 ^ (r + 1)) :: rest.events,
          dlErrWrites := (row, url, msg) :: rest.dlErrWrites,
          effect := rest.effect }

/-- Result of one whole worker. -/
structure WorkerResult where
  events : List Event
  invalidWrites : List (Nat × Url)
  dlErrWrites : List (Nat × String × String)
  effect : BreakerEffect
deriving DecidableEq

/-- src/main.py lines 65-123.  The semaphore is acquired first (line
70); `row = index + 1` (line 71); invalid urls are recorded and the
worker returns (lines 72-74); otherwise the retry loop runs with the
gate held.  The release models leaving `async with semaphore`. -/
def download_image (url : Url) (index : Nat) (net : Nat → AttemptResult)
    (maxRetries : Nat := 3) : WorkerResult :=
  match url with
  | .nonString =>
    { events := [.acquire, .release],
      invalidWrites := [(index + 1, Url.nonString)],
      dlErrWrites := [], effect := .idle }
  | .str s =>
    if strStartsWith s "http" then
      let lr := attemptLoop net s (index + 1) index maxRetries 0
      { events := .acquire :: (lr.events ++ [.release]),
        invalidWrites := [], dlErrWrites := lr.dlErrWrites, effect := lr.effect }
    else
      { events := [.acquire, .release],
        invalidWrites := [(index + 1, Url.str s)],
        dlErrWrites := [], effect := .idle }

/-- Number of network fetches in a trace. -/
def netCount (es : List Event) : Nat :=
  es.countP fun e => match e with | .fetch _ => true | _ => false

/-- The backoff delays of a trace, in order. -/
def backoffs (es : List Event) : List Nat :=
  es.filterMap fun e => match e with | .sleepBackoff t => some t | _ => none

/-- The file names written by a trace, in order. -/
def fileWrites (es : List Event) : List String :=
  es.filterMap fun e => match e with | .fileWrite n => some n | _ => none

/-- Whether a trace contains a gate acquisition. -/
def hasAcquire (es : List Event) : Bool :=
  es.any fun e => match e with | .acquire => true | _ => false

/-- Transient-failure classification (an `httpx.RequestError`). -/
def isTransient : AttemptResult → Bool
  | .requestError _ => true
  | _ => false

/-! ## The error log and the final report

The shared `error_log` dict of src/main.py lines 40-41 and the
`log_errors` finalizer of lines 126-154.  The two row-keyed dicts are
modelled as insertion-ordered association lists with overwriting
insertion, exactly Python dict assignment.  Each worker's writes target
only its own key `index + 1`, so the final mapping contents are the same
under every interleaving of workers; the run model applies the workers'
writes in task order. -/

/-- Metadata of the run (the `METADATA` sub-dict, line 41).  `num_urls`
and `num_errors` are `none` while the corresponding key is absent. -/
structure RunMetadata where
  excel_file : String
  timestamp : String
  notes : String
  num_urls : Option Nat
  num_errors : Option Nat
deriving DecidableEq

/-- The shared `error_log` dictionary. -/
structure ErrorLog where
  invalid_urls : List (Nat × Url)
  download_errors : List (Nat × String × String)
  metadata : RunMetadata
deriving DecidableEq

/-- The log built at src/main.py lines 40-41. -/
def initLog (excel ts : String) : ErrorLog :=
  { invalid_urls := [], download_errors := [],
    metadata := { excel_file := excel, timestamp := ts, notes := "",
                  num_urls := none, num_errors := none } }

/-- Python dict assignment `d[k] = v`: overwrite in place, else append. -/
def mapInsert (k : Nat) (v : α) (m : List (Nat × α)) : List (Nat × α) :=
  if m.any fun e => e.1 = k then
    m.map fun e => if e.1 = k then (k, v) else e
  else m ++ [(k, v)]

/-- `log_errors` (src/main.py lines 126-154), the pure part: line 129
always sets `num_urls` to the error total; lines 133-134 set
`num_errors` only when that total is positive.  Printing and the
report-file naming are I/O and carry no data into the log. -/
def log_errors (log : ErrorLog) : ErrorLog :=
  let n := log.invalid_urls.length + log.download_errors.length
  let md := { log.metadata with num_urls := some n }
  let md := if 0 < n then { md with num_errors := some n } else md
  { log with metadata := md }

/-- Apply one worker's log writes, in the order the worker made them. -/
def applyWorker (log : ErrorLog) (w : WorkerResult) : ErrorLog :=
  let l1 := w.invalidWrites.foldl
    (fun l e => { l with invalid_urls := mapInsert e.1 e.2 l.invalid_urls }) log
  w.dlErrWrites.foldl
    (fun l e => { l with download_errors := mapInsert e.1 e.2 l.download_errors }) l1

/-- One worker per task, in task order, as built at src/main.py
lines 182-185: task `i` gets url `tasks[i]` and position `i`. -/
def runWorkers (tasks : List Url) (net : Nat → Nat → AttemptResult)
    (maxRetries : Nat) : List WorkerResult :=
  tasks.enum.map fun p => download_image p.2 p.1 (net p.1) maxRetries

/-- The finalized log of a completed run: `main` calls `log_errors` once
up front (line 43) and `get_images` calls it again at the end
(line 194). -/
def runReport (tasks : List Url) (net : Nat → Nat → AttemptResult)
    (maxRetries : Nat) (excel ts : String) : ErrorLog :=
  log_errors ((runWorkers tasks net maxRetries).foldl applyWorker
    (log_errors (initLog excel ts)))

/-- All files written during a run, in task order. -/
def runFileWrites (tasks : List Url) (net : Nat → Nat → AttemptResult)
    (maxRetries : Nat) : List String :=
  ((runWorkers tasks net maxRetries).map fun w => fileWrites w.events).flatten

/-- `json.dump` stringifies the integer row keys of `invalid_urls`. -/
def serializeInvalid (log : ErrorLog) : List (String × Url) :=
  log.invalid_urls.map fun e => (toString e.1, e.2)

/-- Lookup in the serialized object. -/
def lookupKey (m : List (String × Url)) (k : String) : Option Url :=
  (m.find? fun e => e.1 == k).map fun e => e.2

/-! ## The circuit breaker

The global `consecutive_failures` / `CONSECUTIVE_FAILURE_THRESHOLD`
(src/main.py lines 62-63) and its updates at lines 95 and 116-123.  A
run is abstracted as the sequence, in completion order, of the workers'
terminal `BreakerEffect`s; any interleaving of workers produces some
such sequence.  Tripping records the note, finalizes the log
(`log_errors`, line 122) and exits with status 1 (line 123). -/

/-- src/main.py line 62. -/
def CONSECUTIVE_FAILURE_THRESHOLD : Nat := 100

/-- The note written at src/main.py line 121. -/
def tripNote : String :=
  "Consecutive failure threshold reached. Stopping the program."

/-- Breaker state: the counter, whether `sys.exit(1)` has fired, the
metadata note, whether `log_errors` was forced, and the exit status. -/
structure BreakerState where
  consecutive_failures : Nat
  tripped : Bool
  notes : String
  finalized : Bool
  exitCode : Option Nat
deriving DecidableEq

/-- Initial breaker state (line 63: counter 0). -/
def breakerInit : BreakerState :=
  { consecutive_failures := 0, tripped := false, notes := "",
    finalized := false, exitCode := none }

/-- Effect of one task's terminal outcome on the breaker: line 95
(reset on success), lines 116-123 (increment on retry exhaustion, trip
at the threshold).  After `sys.exit(1)` nothing further runs. -/
def breakerStep (threshold : Nat) (s : BreakerState) (e : BreakerEffect) :
    BreakerState :=
  if s.tripped then s
  else
    match e with
    | .reset => { s with consecutive_failures := 0 }
    | .idle => s
    | .inc =>
      let n := s.consecutive_failures + 1
      if threshold ≤ n then
        { consecutive_failures := n, tripped := true, notes := tripNote,
          finalized := true, exitCode := some 1 }
      else { s with consecutive_failures := n }

/-- The breaker state after a sequence of task outcomes. -/
def breakerRun (threshold : Nat) (es : List BreakerEffect) : BreakerState :=
  es.foldl (breakerStep threshold) breakerInit

/-- Number of retry-exhaustion outcomes in a sequence. -/
def countInc (es : List BreakerEffect) : Nat :=
  es.countP fun e => e == BreakerEffect.inc

/-! ## The concurrency gate

`asyncio.Semaphore(max_dls)` (src/main.py line 175) and the
`async with semaphore` entry (line 70), as a labelled transition system
over the workers' phases.  A worker may pass the gate only when a slot
is free; releasing frees the slot. -/

/-- Phase of one worker with respect to the gate. -/
inductive WPhase where
  | outside
  | inside
  | done
deriving DecidableEq

/-- Phases of all workers plus the semaphore's free-slot count. -/
structure GateState where
  phases : List WPhase
  avail : Nat
deriving DecidableEq

/-- All workers outside, all `cap` slots free. -/
def initGate (cap n : Nat) : GateState :=
  { phases := List.replicate n .outside, avail := cap }

/-- Number of workers currently past the gate-acquisition point. -/
def insideCount (ps : List WPhase) : Nat :=
  ps.countP fun p => p == WPhase.inside

/-- Scheduler steps: acquisition needs a free slot (asyncio semaphore
semantics), release is unconditional when inside. -/
inductive GateStep : GateState → GateState → Prop where
  | acquire (s : GateState) (i : Nat)
      (hp : s.phases[i]? = some .outside) (ha : 0 < s.avail) :
      GateStep s { phases := s.phases.set i .inside, avail := s.avail - 1 }
  | release (s : GateState) (i : Nat)
      (hp : s.phases[i]? = some .inside) :
      GateStep s { phases := s.phases.set i .done, avail := s.avail + 1 }

/-- States reachable by any interleaving of `n` workers through a gate
of capacity `cap`. -/
def GateReach (cap n : Nat) (s : GateState) : Prop :=
  Relation.ReflTransGen GateStep (initGate cap n) s

/-! ## Startup

`get_images` (src/main.py lines 157-194): the semaphore is constructed
at line 175, before the task list is built at lines 182-185.
`asyncio.Semaphore` raises `ValueError` exactly when its initial value
is negative; zero is accepted. -/

/-- The `ValueError` message of `asyncio.Semaphore.__init__`. -/
def semErrorMsg : String := "Semaphore initial value must be >= 0"

/-- Models the `asyncio.Semaphore` constructor invoked at line 175. -/
def mkSemaphore (v : Int) : Except String Nat :=
  if v < 0 then .error semErrorMsg else .ok v.toNat

/-- Startup portion of `get_images`: semaphore construction precedes
task creation, so a constructor error aborts before any dispatch. -/
def get_images_setup (max_dls : Int) (tasks : List Url) :
    Except String (Nat × List Url) :=
  match mkSemaphore max_dls with
  | .error e => .error e
  | .ok cap => .ok (cap, tasks)

/-! ## Concrete scenarios from the specification -/

/-- Scenario A: five valid image URLs, all reachable. -/
def tasksA : List Url :=
  [.str "http://h/a1.jpg", .str "http://h/a2.jpg", .str "http://h/a3.jpg",
   .str "http://h/a4.jpg", .str "http://h/a5.jpg"]

/-- Network where every fetch of every task succeeds. -/
def netOk : Nat → Nat → AttemptResult := fun _ _ => .ok

/-- Finalized report of scenario A. -/
def reportA : ErrorLog :=
  runReport tasksA netOk 3 "input.xlsx" "2026-10-12 00:00:00"

/-- Scenario B: the task at (1-based) row 3 carries an ftp url. -/
def tasksB : List Url :=
  [.str "http://h/a.jpg", .str "http://h/b.jpg", .str "ftp://x/y.png"]

/-- Finalized report of scenario B. -/
def reportB : ErrorLog :=
  runReport tasksB netOk 3 "input.xlsx" "2026-10-12 00:00:00"

/-! ## Helper lemmas about the retry loop -/

theorem netCount_wrap (es : List Event) :
    netCount (Event.acquire :: (es ++ [Event.release])) = netCount es := by
  simp [netCount, List.countP_cons, List.countP_append]

theorem backoffs_wrap (es : List Event) :
    backoffs (Event.acquire :: (es ++ [Event.release])) = backoffs es := by
  simp [backoffs, List.filterMap_cons, List.filterMap_append]

theorem attemptLoop_zero (net : Nat → AttemptResult) (url : String)
    (row index r : Nat) :
    attemptLoop net url row index 0 r
      = { events := [], dlErrWrites := [], effect := .idle } := rfl

theorem attemptLoop_ok (net : Nat → AttemptResult) (url : String)
    (row index n r : Nat) (h : net r = AttemptResult.ok) :
    attemptLoop net url row index (n + 1) r
      = { events := [.fetch r, .fileWrite (resolve_filename url index), .sleepPacing],
          dlErrWrites := [], effect := .reset } := by
  unfold attemptLoop
  rw [h]

theorem attemptLoop_perm (net : Nat → AttemptResult) (url : String)
    (row index n r : Nat) (m : String)
    (h : net r = AttemptResult.httpStatusError m) :
    attemptLoop net url row index (n + 1) r
      = { events := [.fetch r], dlErrWrites := [(row, url, m)],
          effect := .idle } := by
  unfold attemptLoop
  rw [h]

theorem attemptLoop_req_last (net : Nat → AttemptResult) (url : String)
    (row index r : Nat) (m : String)
    (h : net r = AttemptResult.requestError m) :
    attemptLoop net url row index 1 r
      = { events := [.fetch r], dlErrWrites := [(row, url, m)],
          effect := .inc } := by
  unfold attemptLoop
  rw [h]

theorem attemptLoop_req_cons (net : Nat → AttemptResult) (url : String)
    (row index n r : Nat) (m : String)
    (h : net r = AttemptResult.requestError m) :
    attemptLoop net url row index (n + 2) r
      = { events := .fetch r :: .sleepBackoff (2 ^ (r + 1))
            :: (attemptLoop net url row index (n + 1) (r + 1)).events,
          dlErrWrites := (row, url, m)
            :: (attemptLoop net url row index (n + 1) (r + 1)).dlErrWrites,
          effect := (attemptLoop net url row index (n + 1) (r + 1)).effect } := by
  conv_lhs => rw [attemptLoop]
  rw [h]

theorem attemptLoop_netCount_le (net : Nat → AttemptResult) (url : String)
    (row index : Nat) : ∀ fuel r,
    netCount (attemptLoop net url row index fuel r).events ≤ fuel := by
  intro fuel
  induction fuel with
  | zero => intro r; simp [attemptLoop_zero, netCount]
  | succ n ih =>
    intro r
    cases hnr : net r with
    | ok => simp [attemptLoop_ok net url row index n r hnr, netCount, List.countP_cons]
    | httpStatusError m =>
      simp [attemptLoop_perm net url row index n r m hnr, netCount, List.countP_cons]
    | requestError m =>
      cases n with
      | zero =>
        simp [attemptLoop_req_last net url row index r m hnr, netCount, List.countP_cons]
      | succ n' =>
        have h := ih (r + 1)
        rw [attemptLoop_req_cons net url row index n' r m hnr]
        simp [netCount, List.countP_cons] at h ⊢
        omega

theorem attemptLoop_dlErr_len_le (net : Nat → AttemptResult) (url : String)
    (row index : Nat) : ∀ fuel r,
    (attemptLoop net url row index fuel r).dlErrWrites.length ≤ fuel := by
  intro fuel
  induction fuel with
  | zero => intro r; simp [attemptLoop_zero]
  | succ n ih =>
    intro r
    cases hnr : net r with
    | ok => simp [attemptLoop_ok net url row index n r hnr]
    | httpStatusError m => simp [attemptLoop_perm net url row index n r m hnr]
    | requestError m =>
      cases n with
      | zero => simp [attemptLoop_req_last net url row index r m hnr]
      | succ n' =>
        have h := ih (r + 1)
        rw [attemptLoop_req_cons net url row index n' r m hnr]
        simp only [List.length_cons]
        omega

theorem attemptLoop_dlErr_keys (net : Nat → AttemptResult) (url : String)
    (row index : Nat) : ∀ fuel r,
    ∀ e ∈ (attemptLoop net url row index fuel r).dlErrWrites,
      e.1 = row ∧ e.2.1 = url := by
  intro fuel
  induction fuel with
  | zero => intro r e he; simp [attemptLoop_zero] at he
  | succ n ih =>
    intro r e he
    cases hnr : net r with
    | ok => simp [attemptLoop_ok net url row index n r hnr] at he
    | httpStatusError m =>
      simp [attemptLoop_perm net url row index n r m hnr] at he
      simp [he]
    | requestError m =>
      cases n with
      | zero =>
        simp [attemptLoop_req_last net url row index r m hnr] at he
        simp [he]
      | succ n' =>
        rw [attemptLoop_req_cons net url row index n' r m hnr] at he
        simp only [List.mem_cons] at he
        cases he with
        | inl h => simp [h]
        | inr h => exact ih (r + 1) e h

theorem attemptLoop_backoffs (net : Nat → AttemptResult) (url : String)
    (row index : Nat) : ∀ fuel r,
    backoffs (attemptLoop net url row index fuel r).events
      = (List.range' (r + 1)
          (backoffs (attemptLoop net url row index fuel r).events).length).map
          fun k => 2 ^ k := by
  intro fuel
  induction fuel with
  | zero => intro r; simp [attemptLoop_zero, backoffs]
  | succ n ih =>
    intro r
    cases hnr : net r with
    | ok => simp [attemptLoop_ok net url row index n r hnr, backoffs]
    | httpStatusError m =>
      simp [attemptLoop_perm net url row index n r m hnr, backoffs]
    | requestError m =>
      cases n with
      | zero => simp [attemptLoop_req_last net url row index r m hnr, backoffs]
      | succ n' =>
        have h := ih (r + 1)
        rw [attemptLoop_req_cons net url row index n' r m hnr]
        simp only [backoffs, List.filterMap_cons] at h ⊢
        rw [List.length_cons, List.range'_succ, List.map_cons]
        exact congrArg (fun l => 2 ^ (r + 1) :: l) h

theorem attemptLoop_exhaust (net : Nat → AttemptResult) (url : String)
    (row index : Nat) (htr : ∀ k, isTransient (net k) = true) : ∀ fuel r,
    0 < fuel →
    (attemptLoop net url row index fuel r).effect = BreakerEffect.inc ∧
    netCount (attemptLoop net url row index fuel r).events = fuel ∧
    (attemptLoop net url row index fuel r).dlErrWrites ≠ [] := by
  intro fuel
  induction fuel with
  | zero => intro r h; omega
  | succ n ih =>
    intro r _
    have hr := htr r
    cases hnr : net r with
    | ok => rw [hnr] at hr; simp [isTransient] at hr
    | httpStatusError m => rw [hnr] at hr; simp [isTransient] at hr
    | requestError m =>
      cases n with
      | zero =>
        simp [attemptLoop_req_last net url row index r m hnr, netCount,
          List.countP_cons]
      | succ n' =>
        have h := ih (r + 1) (by omega)
        rw [attemptLoop_req_cons net url row index n' r m hnr]
        simp [netCount, List.countP_cons] at h ⊢
        refine ⟨h.1, ?_⟩
        omega

theorem attemptLoop_perm_first (net : Nat → AttemptResult) (url : String)
    (row index : Nat) (fuel r : Nat) (m : String)
    (hperm : net r = AttemptResult.httpStatusError m) (hf : 0 < fuel) :
    netCount (attemptLoop net url row index fuel r).events = 1 ∧
    (attemptLoop net url row index fuel r).effect = BreakerEffect.idle ∧
    (attemptLoop net url row index fuel r).dlErrWrites ≠ [] := by
  cases fuel with
  | zero => omega
  | succ n =>
    simp [attemptLoop_perm net url row index n r m hperm, netCount,
      List.countP_cons]

theorem chain_le_pow_range' : ∀ (n a : Nat),
    List.Chain' (fun x y => x ≤ y) ((List.range' a n).map fun k => 2 ^ k) := by
  intro n
  induction n with
  | zero => intro a; simp
  | succ m ih =>
    intro a
    cases m with
    | zero => simp
    | succ m' =>
      rw [List.range'_succ, List.range'_succ, List.map_cons, List.map_cons,
        List.chain'_cons]
      constructor
      · exact Nat.pow_le_pow_right (by omega) (by omega)
      · have h := ih (a + 1)
        rw [List.range'_succ, List.map_cons] at h
        exact h

/-! ## Helper lemmas about the worker wrapper -/

theorem download_image_valid (s : String) (index maxRetries : Nat)
    (net : Nat → AttemptResult) (hv : strStartsWith s "http" = true) :
    download_image (Url.str s) index net maxRetries
      = { events := .acquire ::
            ((attemptLoop net s (index + 1) index maxRetries 0).events
              ++ [.release]),
          invalidWrites := [],
          dlErrWrites := (attemptLoop net s (index + 1) index maxRetries 0).dlErrWrites,
          effect := (attemptLoop net s (index + 1) index maxRetries 0).effect } := by
  simp [download_image, hv]

theorem download_image_invalid (url : Url) (index maxRetries : Nat)
    (net : Nat → AttemptResult) (hv : isValidUrl url = false) :
    download_image url index net maxRetries
      = { events := [.acquire, .release],
          invalidWrites := [(index + 1, url)],
          dlErrWrites := [], effect := .idle } := by
  cases url with
  | nonString => rfl
  | str s =>
    have hv' : strStartsWith s "http" = false := by simpa [isValidUrl] using hv
    simp [download_image, hv']

/-! ## Helper lemmas about the circuit breaker -/

theorem breakerStep_tripped (T : Nat) (s : BreakerState) (e : BreakerEffect)
    (h : s.tripped = true) : breakerStep T s e = s := by
  simp [breakerStep, h]

theorem breaker_foldl_tripped (T : Nat) (l : List BreakerEffect) :
    ∀ s : BreakerState, s.tripped = true →
    l.foldl (breakerStep T) s = s := by
  induction l with
  | nil => intro s _; rfl
  | cons e t ih =>
    intro s h
    rw [List.foldl_cons, breakerStep_tripped T s e h]
    exact ih s h

/-- The invariant the breaker maintains: a tripped state carries the
note, the forced finalization and the exit status; an armed state's
counter is below the threshold. -/
def BGood (T : Nat) (s : BreakerState) : Prop :=
  (s.tripped = true →
    s.notes = tripNote ∧ s.finalized = true ∧ s.exitCode = some 1) ∧
  (s.tripped = false → s.consecutive_failures < T)

theorem bgood_init (T : Nat) (hT : 0 < T) : BGood T breakerInit := by
  constructor
  · intro h; simp [breakerInit] at h
  · intro _; simpa [breakerInit] using hT

theorem bgood_step (T : Nat) (hT : 0 < T) (s : BreakerState)
    (e : BreakerEffect) (h : BGood T s) : BGood T (breakerStep T s e) := by
  by_cases ht : s.tripped = true
  · rw [breakerStep_tripped T s e ht]; exact h
  · have ht' : s.tripped = false := by revert ht; cases s.tripped <;> simp
    cases e with
    | reset =>
      refine ⟨?_, ?_⟩
      · intro hc
        simp [breakerStep, ht'] at hc
      · intro _
        simp [breakerStep, ht']
        omega
    | idle =>
      have : breakerStep T s .idle = s := by simp [breakerStep, ht']
      rw [this]; exact h
    | inc =>
      by_cases htr : T ≤ s.consecutive_failures + 1
      · have hs : breakerStep T s .inc
            = { consecutive_failures := s.consecutive_failures + 1,
                tripped := true, notes := tripNote, finalized := true,
                exitCode := some 1 } := by
          simp [breakerStep, ht', htr]
        rw [hs]
        exact ⟨fun _ => ⟨rfl, rfl, rfl⟩, fun hc => by cases hc⟩
      · have hs : breakerStep T s .inc
            = { s with consecutive_failures := s.consecutive_failures + 1 } := by
          simp [breakerStep, ht', htr]
        rw [hs]
        refine ⟨?_, ?_⟩
        · intro hc
          simp at hc
          rw [hc] at ht'
          cases ht'
        · intro _
          simp
          omega

theorem bgood_fold (T : Nat) (hT : 0 < T) (l : List BreakerEffect) :
    ∀ s, BGood T s → BGood T (l.foldl (breakerStep T) s) := by
  induction l with
  | nil => intro s h; exact h
  | cons e t ih =>
    intro s h
    rw [List.foldl_cons]
    exact ih _ (bgood_step T hT s e h)

theorem breaker_fold_trips (T : Nat) (hT : 0 < T) :
    ∀ (l : List BreakerEffect) (s : BreakerState), s.tripped = false →
    s.consecutive_failures < T →
    T ≤ s.consecutive_failures + countInc l →
    BreakerEffect.reset ∉ l →
    (l.foldl (breakerStep T) s).tripped = true := by
  intro l
  induction l with
  | nil =>
    intro s h1 h2 h3 _
    simp [countInc] at h3
    omega
  | cons e t ih =>
    intro s h1 h2 h3 hnr
    have hnr' : BreakerEffect.reset ∉ t :=
      fun hm => hnr (List.mem_cons_of_mem e hm)
    cases e with
    | reset => exact absurd (List.mem_cons_self _ _) hnr
    | idle =>
      rw [List.foldl_cons]
      have hs : breakerStep T s .idle = s := by simp [breakerStep, h1]
      rw [hs]
      apply ih s h1 h2 _ hnr'
      simpa [countInc, List.countP_cons] using h3
    | inc =>
      rw [List.foldl_cons]
      by_cases htr : T ≤ s.consecutive_failures + 1
      · have hs : (breakerStep T s .inc).tripped = true := by
          simp [breakerStep, h1, htr]
        rw [breaker_foldl_tripped T t _ hs]
        exact hs
      · have hs : breakerStep T s .inc
            = { s with consecutive_failures := s.consecutive_failures + 1 } := by
          simp [breakerStep, h1, htr]
        rw [hs]
        exact ih _ (by simp [h1]) (by simp; omega)
          (by simp [countInc, List.countP_cons] at h3 ⊢; omega) hnr'

/-! ## Helper lemmas about the concurrency gate -/

theorem countP_set_incr {α : Type} (p : α → Bool) :
    ∀ (l : List α) (i : Nat) (a b : α), l[i]? = some a →
    p a = false → p b = true →
    (l.set i b).countP p = l.countP p + 1 := by
  intro l
  induction l with
  | nil => intro i a b h _ _; simp at h
  | cons x xs ih =>
    intro i a b h hpa hpb
    cases i with
    | zero =>
      simp at h
      subst h
      simp [List.countP_cons, hpa, hpb]
    | succ j =>
      simp at h
      rw [List.set_cons_succ, List.countP_cons, List.countP_cons,
        ih j a b h hpa hpb]
      omega

theorem countP_set_decr {α : Type} (p : α → Bool) :
    ∀ (l : List α) (i : Nat) (a b : α), l[i]? = some a →
    p a = true → p b = false →
    (l.set i b).countP p + 1 = l.countP p := by
  intro l
  induction l with
  | nil => intro i a b h _ _; simp at h
  | cons x xs ih =>
    intro i a b h hpa hpb
    cases i with
    | zero =>
      simp at h
      subst h
      simp [List.countP_cons, hpa, hpb]
    | succ j =>
      simp at h
      rw [List.set_cons_succ, List.countP_cons, List.countP_cons]
      have := ih j a b h hpa hpb
      omega

theorem gate_inv (cap n : Nat) (s : GateState) (h : GateReach cap n s) :
    insideCount s.phases + s.avail = cap := by
  induction h with
  | refl =>
    have h0 : insideCount (List.replicate n WPhase.outside) = 0 := by
      rw [insideCount, List.countP_eq_zero]
      intro a ha
      rw [List.eq_of_mem_replicate ha]
      decide
    simp [initGate, h0]
  | @tail b c hab hbc ih =>
    cases hbc with
    | acquire i hp ha =>
      have hc := countP_set_incr (fun p => p == WPhase.inside) b.phases i
        WPhase.outside WPhase.inside hp (by decide) (by decide)
      simp only [insideCount] at ih ⊢
      rw [hc]
      omega
    | release i hp =>
      have hc := countP_set_decr (fun p => p == WPhase.inside) b.phases i
        WPhase.inside WPhase.done hp (by decide) (by decide)
      simp only [insideCount] at ih ⊢
      omega

/-! ## Claim theorems -/

/-- C1 counterexample: the claimed invariant fails on the code.  A task
whose first fetch raises a transient error and whose retry succeeds is a
`Succeeded` outcome (`effect = reset`) yet retains an entry in
`download_errors` (src/main.py line 108 writes the record before the
retry decision); and a task failing all three attempts has its
`download_errors` key written three times, not at most once. -/
theorem C1_counterexample :
    (download_image (Url.str "http://h/a.jpg") 0
        (fun k => if k = 0 then .requestError "boom" else .ok) 3).effect
      = BreakerEffect.reset ∧
    (download_image (Url.str "http://h/a.jpg") 0
        (fun k => if k = 0 then .requestError "boom" else .ok) 3).dlErrWrites.length
      = 1 ∧
    (download_image (Url.str "http://h/a.jpg") 0
        (fun _ => .requestError "boom") 3).dlErrWrites.length = 3 := by
  decide

/-- C1 amended: a task's row key appears in at most one of the two
mappings (never both), `invalid_urls` is written at most once, and every
write of either mapping targets the task's own key `index + 1` (so
distinct tasks touch disjoint keys under every interleaving); but
`download_errors` may be written once per failed attempt, up to
`max_retries` times, and a task that succeeds after a transient failure
retains a `download_errors` entry. -/
theorem C1_log_key_discipline (url : Url) (index maxRetries : Nat)
    (net : Nat → AttemptResult) :
    ((download_image url index net maxRetries).invalidWrites = []
      ∨ (download_image url index net maxRetries).dlErrWrites = []) ∧
    (download_image url index net maxRetries).invalidWrites.length ≤ 1 ∧
    (∀ e ∈ (download_image url index net maxRetries).invalidWrites,
      e.1 = index + 1) ∧
    (∀ e ∈ (download_image url index net maxRetries).dlErrWrites,
      e.1 = index + 1) ∧
    (download_image url index net maxRetries).dlErrWrites.length ≤ maxRetries := by
  by_cases hv : isValidUrl url = true
  · cases url with
    | nonString => simp [isValidUrl] at hv
    | str s =>
      have hv' : strStartsWith s "http" = true := by simpa [isValidUrl] using hv
      rw [download_image_valid s index maxRetries net hv']
      refine ⟨Or.inl rfl, by simp, by simp, ?_, ?_⟩
      · intro e he
        exact ((attemptLoop_dlErr_keys net s (index + 1) index maxRetries 0)
          e he).1
      · exact attemptLoop_dlErr_len_le net s (index + 1) index maxRetries 0
  · have hv' : isValidUrl url = false := by
      revert hv; cases isValidUrl url <;> simp
    rw [download_image_invalid url index maxRetries net hv']
    simp

/-- C2 counterexample: an invalid-URL task does acquire the concurrency
gate — `async with semaphore` (src/main.py line 70) wraps the validation
of line 72 — contradicting "without acquiring the Concurrency Gate". -/
theorem C2_counterexample :
    (download_image (Url.str "ftp://x/y.png") 2 (fun _ => .ok) 3).invalidWrites
      = [(3, Url.str "ftp://x/y.png")] ∧
    hasAcquire (download_image (Url.str "ftp://x/y.png") 2
      (fun _ => .ok) 3).events = true := by
  decide

/-- C2 amended: a task whose url is not a string or does not start with
"http" has its row index recorded in `invalid_urls` exactly once and the
worker returns with no fetch and no `download_errors` write — but only
after acquiring (and then releasing) the Concurrency Gate. -/
theorem C2_invalid_url_recorded (url : Url) (index maxRetries : Nat)
    (net : Nat → AttemptResult) (h : isValidUrl url = false) :
    (download_image url index net maxRetries).invalidWrites
      = [(index + 1, url)] ∧
    netCount (download_image url index net maxRetries).events = 0 ∧
    (download_image url index net maxRetries).dlErrWrites = [] ∧
    hasAcquire (download_image url index net maxRetries).events = true := by
  rw [download_image_invalid url index maxRetries net h]
  exact ⟨rfl, rfl, rfl, rfl⟩

/-- C2 witness: a concrete ftp url at position 2 (row 3). -/
theorem C2_invalid_url_recorded_witness :
    isValidUrl (Url.str "ftp://a/b.png") = false ∧
    (download_image (Url.str "ftp://a/b.png") 2 (fun _ => .ok) 3).invalidWrites
      = [(3, Url.str "ftp://a/b.png")] := by
  exact ⟨by decide,
    (C2_invalid_url_recorded (Url.str "ftp://a/b.png") 2 3 (fun _ => .ok)
      (by decide)).1⟩

/-- C3: the retry contract of src/main.py lines 79-123.  A permanent
failure (HTTP status error) on the first attempt means exactly one fetch
and no breaker increment; at most `max_retries` fetches ever happen; the
backoff delays are exactly `2^k` before the k-th retry (consecutive
powers of two starting at 2^1), hence non-decreasing; a task with only
transient failures makes exactly `max_retries` fetches, is recorded in
`download_errors`, and increments the breaker counter — by exactly 1,
per the last conjunct. -/
theorem C3_retry_contract (s : String) (index maxRetries : Nat)
    (net : Nat → AttemptResult) (hval : strStartsWith s "http" = true)
    (hmr : 0 < maxRetries) :
    (∀ m, net 0 = AttemptResult.httpStatusError m →
      netCount (download_image (Url.str s) index net maxRetries).events = 1 ∧
      (download_image (Url.str s) index net maxRetries).effect
        = BreakerEffect.idle) ∧
    netCount (download_image (Url.str s) index net maxRetries).events
      ≤ maxRetries ∧
    backoffs (download_image (Url.str s) index net maxRetries).events
      = (List.range' 1
          (backoffs (download_image (Url.str s) index net maxRetries).events).length).map
          (fun k => 2 ^ k) ∧
    List.Chain' (fun a b => a ≤ b)
      (backoffs (download_image (Url.str s) index net maxRetries).events) ∧
    ((∀ k, isTransient (net k) = true) →
      (download_image (Url.str s) index net maxRetries).effect
        = BreakerEffect.inc ∧
      netCount (download_image (Url.str s) index net maxRetries).events
        = maxRetries ∧
      (download_image (Url.str s) index net maxRetries).dlErrWrites ≠ []) ∧
    (∀ b : BreakerState, b.tripped = false →
      (breakerStep CONSECUTIVE_FAILURE_THRESHOLD b BreakerEffect.inc).consecutive_failures
        = b.consecutive_failures + 1) := by
  rw [download_image_valid s index maxRetries net hval]
  dsimp only
  rw [netCount_wrap, backoffs_wrap]
  refine ⟨?_, ?_, ?_, ?_, ?_, ?_⟩
  · intro m hm
    exact ⟨(attemptLoop_perm_first net s (index + 1) index maxRetries 0 m hm hmr).1,
      (attemptLoop_perm_first net s (index + 1) index maxRetries 0 m hm hmr).2.1⟩
  · exact attemptLoop_netCount_le net s (index + 1) index maxRetries 0
  · simpa using attemptLoop_backoffs net s (index + 1) index maxRetries 0
  · have hb := attemptLoop_backoffs net s (index + 1) index maxRetries 0
    rw [hb]
    simpa using chain_le_pow_range'
      (backoffs (attemptLoop net s (index + 1) index maxRetries 0).events).length 1
  · intro htr
    exact ⟨(attemptLoop_exhaust net s (index + 1) index htr maxRetries 0 hmr).1,
      (attemptLoop_exhaust net s (index + 1) index htr maxRetries 0 hmr).2.1,
      (attemptLoop_exhaust net s (index + 1) index htr maxRetries 0 hmr).2.2⟩
  · intro b hb
    by_cases hc : CONSECUTIVE_FAILURE_THRESHOLD ≤ b.consecutive_failures + 1
    · simp [breakerStep, hb, hc]
    · simp [breakerStep, hb, hc]

/-- C3 witness: an http url whose connection always fails transiently,
with the default `max_retries = 3`. -/
theorem C3_retry_contract_witness :
    strStartsWith "http://h/x.jpg" "http" = true ∧ 0 < 3 ∧
    netCount (download_image (Url.str "http://h/x.jpg") 0
      (fun _ => .requestError "timeout") 3).events ≤ 3 := by
  exact ⟨by decide, by decide,
    (C3_retry_contract "http://h/x.jpg" 0 3 (fun _ => .requestError "timeout")
      (by decide) (by decide)).2.1⟩

/-- C4: starting from counter 0, once a block of outcomes containing at
least `threshold` retry-exhaustions and no success arrives (in any
surrounding context), the breaker trips: the trip note is recorded (and
is non-empty), the error log is finalized at once, and the process exits
with status 1; moreover any success while armed resets the counter to 0,
and the threshold constant is 100. -/
theorem C4_breaker_trips (T : Nat) (pre block post : List BreakerEffect)
    (hT : 0 < T) (hcnt : T ≤ countInc block)
    (hnr : BreakerEffect.reset ∉ block) :
    (breakerRun T (pre ++ block ++ post)).tripped = true ∧
    (breakerRun T (pre ++ block ++ post)).notes = tripNote ∧
    (breakerRun T (pre ++ block ++ post)).notes ≠ "" ∧
    (breakerRun T (pre ++ block ++ post)).finalized = true ∧
    (breakerRun T (pre ++ block ++ post)).exitCode = some 1 ∧
    (∀ s : BreakerState, s.tripped = false →
      (breakerStep T s BreakerEffect.reset).consecutive_failures = 0) ∧
    CONSECUTIVE_FAILURE_THRESHOLD = 100 := by
  have hreset : ∀ s : BreakerState, s.tripped = false →
      (breakerStep T s BreakerEffect.reset).consecutive_failures = 0 := by
    intro s hs
    simp [breakerStep, hs]
  have hfin : (breakerRun T (pre ++ block ++ post)).tripped = true := by
    rw [breakerRun, List.foldl_append, List.foldl_append]
    set s1 := pre.foldl (breakerStep T) breakerInit with hs1
    have hg1 : BGood T s1 := bgood_fold T hT pre breakerInit (bgood_init T hT)
    by_cases ht1 : s1.tripped = true
    · rw [breaker_foldl_tripped T block s1 ht1,
        breaker_foldl_tripped T post s1 ht1]
      exact ht1
    · have ht1' : s1.tripped = false := by
        revert ht1; cases s1.tripped <;> simp
      have h2 : (block.foldl (breakerStep T) s1).tripped = true :=
        breaker_fold_trips T hT block s1 ht1' (hg1.2 ht1')
          (le_trans hcnt (by omega)) hnr
      rw [breaker_foldl_tripped T post _ h2]
      exact h2
  have hgood : BGood T (breakerRun T (pre ++ block ++ post)) := by
    rw [breakerRun]
    exact bgood_fold T hT (pre ++ block ++ post) breakerInit (bgood_init T hT)
  have hfields := hgood.1 hfin
  refine ⟨hfin, hfields.1, ?_, hfields.2.1, hfields.2.2, hreset, rfl⟩
  rw [hfields.1]
  decide

/-- C4 witness: threshold 2 and two consecutive exhaustions (spec
scenario E shape). -/
theorem C4_breaker_trips_witness :
    0 < 2 ∧ 2 ≤ countInc [BreakerEffect.inc, BreakerEffect.inc] ∧
    BreakerEffect.reset ∉ [BreakerEffect.inc, BreakerEffect.inc] ∧
    (breakerRun 2 ([] ++ [BreakerEffect.inc, BreakerEffect.inc] ++ [])).tripped
      = true := by
  exact ⟨by decide, by decide, by decide,
    (C4_breaker_trips 2 [] [BreakerEffect.inc, BreakerEffect.inc] []
      (by decide) (by decide) (by decide)).1⟩

/-- C5: in every state reachable by any interleaving of `n` workers
through the gate, at most `cap = max_concurrent_downloads` workers are
past the gate-acquisition point, for any bound ≥ 1. -/
theorem C5_gate_bound (cap n : Nat) (hcap : 1 ≤ cap) (s : GateState)
    (h : GateReach cap n s) : insideCount s.phases ≤ cap := by
  have hinv := gate_inv cap n s h
  omega

/-- C5 witness: capacity 2, three workers, one acquisition performed. -/
theorem C5_gate_bound_witness :
    1 ≤ 2 ∧
    GateReach 2 3 (GateState.mk [WPhase.inside, WPhase.outside, WPhase.outside] 1) ∧
    insideCount [WPhase.inside, WPhase.outside, WPhase.outside] ≤ 2 := by
  have hreach : GateReach 2 3
      (GateState.mk [WPhase.inside, WPhase.outside, WPhase.outside] 1) :=
    Relation.ReflTransGen.single
      (GateStep.acquire (initGate 2 3) 0 (by decide) (by decide))
  exact ⟨by decide, hreach, C5_gate_bound 2 3 (by decide) _ hreach⟩

/-- C6 counterexample: for the URL `http://x/a.tiff` the resolved file
name is `a.tiff` — the URL path's final segment verbatim — whose
extension `.tiff` is not in the allow-list, contradicting "the file
name's extension is always in the allow-list".  (`get_file_extension`
is computed at line 86 but its result is discarded at line 90 when the
basename is non-empty.) -/
theorem C6_counterexample :
    resolve_filename "http://x/a.tiff" 0 = "a.tiff" ∧
    splitextExt (resolve_filename "http://x/a.tiff" 0) = ".tiff" ∧
    ".tiff" ∉ allowedExts := by
  decide

/-- C6 amended: `get_file_extension` always yields an allow-listed
extension (the URL path's own when it matches case-sensitively, else the
default `.jpg`), but the resolver applies it only when synthesizing
`image_<index>` for an empty final path segment; a non-empty final
segment is used verbatim, its extension unchanged. -/
theorem C6_filename_resolution (url : String) (index : Nat) :
    get_file_extension url ∈ allowedExts ∧
    get_file_extension url
      = (if splitextExt (urlPath url) ∈ allowedExts
         then splitextExt (urlPath url) else ".jpg") ∧
    resolve_filename url index
      = (if basename (urlPath url) = ""
         then "image_" ++ toString index ++ get_file_extension url
         else basename (urlPath url)) := by
  refine ⟨?_, rfl, rfl⟩
  by_cases h : splitextExt (urlPath url) ∈ allowedExts
  · simp [get_file_extension, h]
  · simp [get_file_extension, h]
    decide

/-- C7 counterexample: in scenario A (five valid reachable URLs) five
files are written, but the finalized report has no `num_errors` field at
all (lines 133-134 set it only when the count is positive), rather than
showing `num_errors = 0`. -/
theorem C7_counterexample :
    (runFileWrites tasksA netOk 3).length = 5 ∧
    reportA.metadata.num_errors = none := by
  decide

/-- C7 amended: `num_errors` equals `|invalid_urls| + |download_errors|`
and is present whenever that total is positive; when the total is zero
the field is left untouched (absent in an error-free run).  Scenario A
yields five files and no `num_errors` field; scenario B's report shows
`num_errors = 1`. -/
theorem C7_error_count (log : ErrorLog) :
    (log_errors log).metadata.num_errors
      = (if 0 < log.invalid_urls.length + log.download_errors.length
         then some (log.invalid_urls.length + log.download_errors.length)
         else log.metadata.num_errors) ∧
    (runFileWrites tasksA netOk 3).length = 5 ∧
    reportA.metadata.num_errors = none ∧
    reportB.metadata.num_errors = some 1 := by
  refine ⟨?_, by decide, by decide, by decide⟩
  by_cases h : 0 < log.invalid_urls.length + log.download_errors.length
  · simp [log_errors, h]
  · simp [log_errors, h]

/-- C8 counterexample: a configured bound of 0 is ≤ 0 yet startup
succeeds — `asyncio.Semaphore(0)` raises nothing — contradicting "the
run fails at startup with a fatal configuration error". -/
theorem C8_counterexample :
    (0 : Int) ≤ 0 ∧
    get_images_setup 0 [Url.str "http://h/a.jpg"]
      = Except.ok (0, [Url.str "http://h/a.jpg"]) := by
  exact ⟨le_refl 0, rfl⟩

/-- C8 amended: a negative bound raises the semaphore constructor's
`ValueError` before any task is created — a startup failure that is not
retried — while a bound of 0 is accepted at startup and instead no
worker can ever pass the gate (the run hangs rather than failing). -/
theorem C8_startup_bound (v : Int) (tasks : List Url) :
    get_images_setup v tasks
      = (if v < 0 then Except.error semErrorMsg
         else Except.ok (v.toNat, tasks)) ∧
    (∀ n s, GateReach 0 n s → insideCount s.phases = 0) := by
  constructor
  · by_cases h : v < 0
    · simp [get_images_setup, mkSemaphore, h]
    · simp [get_images_setup, mkSemaphore, h]
  · intro n s hs
    have hinv := gate_inv 0 n s hs
    omega

/-- C9: in scenario B the serialized report's `invalid_urls` maps the
string key "3" to the ftp url at (1-based) row 3, no file is written by
that task's worker, and the run writes files only for the two valid
tasks. -/
theorem C9_scenarioB :
    lookupKey (serializeInvalid reportB) "3" = some (Url.str "ftp://x/y.png") ∧
    fileWrites (download_image (Url.str "ftp://x/y.png") 2 (netOk 2) 3).events
      = [] ∧
    runFileWrites tasksB netOk 3 = ["a.jpg", "b.jpg"] := by
  decide

/-- C10: every call of `log_errors` sets `num_urls` to
`|invalid_urls| + |download_errors|` — the error count — and in
scenario A the report accordingly shows `num_urls = 0` although five
URLs were processed. -/
theorem C10_num_urls (log : ErrorLog) :
    (log_errors log).metadata.num_urls
      = some (log.invalid_urls.length + log.download_errors.length) ∧
    reportA.metadata.num_urls = some 0 ∧
    tasksA.length = 5 := by
  refine ⟨?_, by decide, by decide⟩
  by_cases h : 0 < log.invalid_urls.length + log.download_errors.length
  · simp [log_errors, h]
  · simp [log_errors, h]

end UrlDl
